import Mathlib

/-!
# Verification of the `formulator` control-tree engine

Shallow embedding of `src/lib/controls.ts` and `src/lib/visitor.ts`
(the reactive form-control tree: `FieldControl`, `GroupControl`,
`ArrayControl`, the validation pipeline, and the registry resolution
used by the config visitor), together with proofs settling the frozen
claims about the specification.

Modelling conventions:
* JS objects `Messages` (error-code -> descriptor) are association lists
  `List (String × String)` (the descriptor is represented by its
  `message` string; claims do not depend on other descriptor fields).
* The rx pipelines are modelled by the finite, ordered list of a
  stream's emissions; `first()` keeps the head, `combineLatest` of
  single-shot streams emits once when every input has emitted.
* Mutation is modelled by state passing: every method of the source
  that mutates `this` becomes a function returning the updated node.
  Publishing on a `BehaviorSubject` stream (`_value$.next`, ...) has no
  further effect on the modelled state and is dropped.
-/

namespace Formulator

/-- Error/message maps (`Messages` in `src/lib/controls.ts` lines 7-12):
an association list from message code to the descriptor's text. -/
abbrev Msgs := List (String × String)

/-- JS object spread `{ ...acc, ...r }` used when merging message maps
(`src/lib/controls.ts` lines 153 and 307): keys of `acc` keep their
position but take `r`'s value when shared; `r`'s fresh keys follow. -/
def spreadMerge (acc r : Msgs) : Msgs :=
  acc.map (fun p => match r.lookup p.1 with
    | some v => (p.1, v)
    | none => p) ++
  r.filter (fun p => (acc.lookup p.1).isNone)

/-- `AbstractStatus` (`src/lib/controls.ts` lines 96-102). -/
structure Status where
  valid : Bool
  pending : Bool
  dirty : Bool
  touched : Bool
  disabled : Bool
  deriving Repr, DecidableEq

/-- The all-`false` status record. -/
def Status.none : Status :=
  ⟨false, false, false, false, false⟩

/-- A `Partial<AbstractStatus>` argument to `setStatus`
(`src/lib/controls.ts` line 316): absent keys are `none`. -/
structure StatusPatch where
  valid : Option Bool := Option.none
  pending : Option Bool := Option.none
  dirty : Option Bool := Option.none
  touched : Option Bool := Option.none
  disabled : Option Bool := Option.none
  deriving Repr, DecidableEq

/-- The object spread `{ ...this.status, ...status }` in `setStatus`
(`src/lib/controls.ts` line 317). -/
def mergeStatus (s : Status) (p : StatusPatch) : Status where
  valid := p.valid.getD s.valid
  pending := p.pending.getD s.pending
  dirty := p.dirty.getD s.dirty
  touched := p.touched.getD s.touched
  disabled := p.disabled.getD s.disabled

/-- Runtime values held by controls: `TValue` instantiations are scalars,
records (group values) or sequences (array values); `vnull` is JS
`null`/`undefined`. -/
inductive Val where
  | vnull : Val
  | vint : Int → Val
  | vstr : String → Val
  | vrec : List (String × Val) → Val
  | vlist : List Val → Val
  deriving Repr

/-- The local state every `FieldControl` carries
(`src/lib/controls.ts` lines 216-226): `value`, `initialValue`,
`status`, `errors`, and the `_initialized$` gate's current value. -/
structure FState where
  value : Val
  initialValue : Val
  status : Status
  errors : Option Msgs
  initialized : Bool
  deriving Repr

/-- A control node. `field` is a leaf `FieldControl`; `group` is a
`GroupControl` with its named `controls`; `array` is an `ArrayControl`
with its `itemFactory` and indexed `controls`
(`src/lib/controls.ts` lines 216, 408, 495). -/
inductive Ctl where
  | field : FState → Ctl
  | group : FState → List (String × Ctl) → Ctl
  | array : FState → (Option Val → Ctl) → List Ctl → Ctl

/-- The `FieldControl` state of any node (every node class extends
`FieldControl`). -/
def Ctl.fstate : Ctl → FState
  | .field s => s
  | .group s _ => s
  | .array s _ _ => s

/-- `control.value`. -/
def Ctl.val (c : Ctl) : Val := c.fstate.value

/-- `control.status`. -/
def Ctl.status (c : Ctl) : Status := c.fstate.status

/-! ## Status aggregation and value reduction -/

/-- The `children.reduce` fold in `FieldControl.update`
(`src/lib/controls.ts` lines 350-359): every one of the five flags is
OR-ed, and the fold is seeded with the node's *current* `this.status`. -/
def statusFold (init : Status) (children : List Ctl) : Status :=
  children.foldl
    (fun acc c =>
      { valid := acc.valid || c.status.valid
        disabled := acc.disabled || c.status.disabled
        pending := acc.pending || c.status.pending
        dirty := acc.dirty || c.status.dirty
        touched := acc.touched || c.status.touched })
    init

/-- `reduceControls` (`src/lib/controls.ts` lines 59-73): build the
group's value record, keeping a child's entry when
`!control.status.disabled || disabled`.  `Object.keys` iterates in
insertion order, so the record keeps the controls' list order. -/
def reduceControls (controls : List (String × Ctl)) (disabled : Bool) : Val :=
  .vrec (controls.filterMap fun nc =>
    cond (!nc.2.status.disabled || disabled) (some (nc.1, nc.2.val)) Option.none)

/-! ## Leaf `FieldControl` operations

A leaf's `update()` (`src/lib/controls.ts` lines 345-364) folds status
over `this.children`, which is `[]` for a plain field (line 376-378),
and then re-publishes the current `value`/`status`/`errors` on the
subject streams; it does not change the modelled state. -/

/-- Leaf `FieldControl.update` (`src/lib/controls.ts` lines 345-364):
with no children the status fold returns `this.status` unchanged and
the method only re-publishes streams. -/
def fieldUpdate (s : FState) : FState :=
  if s.initialized then { s with status := statusFold s.status [] } else s

/-- `FieldControl.setStatus` (`src/lib/controls.ts` lines 316-320):
spread-merge the patch into `this.status`, then `this.update()`. -/
def fieldSetStatus (s : FState) (p : StatusPatch) : FState :=
  fieldUpdate { s with status := mergeStatus s.status p }

/-- `FieldControl.setValue` (`src/lib/controls.ts` lines 322-325):
assign the value, then `setStatus({ dirty: true, touched: true })`. -/
def fieldSetValue (s : FState) (v : Val) : FState :=
  fieldSetStatus { s with value := v }
    { dirty := some true, touched := some true }

/-- `FieldControl.reset` (`src/lib/controls.ts` lines 331-334):
restore `initialValue`, then `setStatus({ dirty: false, touched: false })`. -/
def fieldReset (s : FState) : FState :=
  fieldSetStatus { s with value := s.initialValue }
    { dirty := some false, touched := some false }

/-! ## `GroupControl` -/

/-- A `GroupControl` (`src/lib/controls.ts` lines 408-493): its
inherited `FieldControl` state plus the named `controls` map
(modelled in insertion order). -/
structure GroupCtl where
  state : FState
  controls : List (String × Ctl)

/-- `this.children` of a group (`src/lib/controls.ts` lines 439-441):
`Object.values(this.controls)`. -/
def GroupCtl.children (g : GroupCtl) : List Ctl := g.controls.map (·.2)

/-- `GroupControl.update` (`src/lib/controls.ts` lines 467-476): when
initialized, recompute `value = reduceControls(this.controls,
this.status.disabled)` (with the *pre-fold* disabled flag), publish it,
then `super.update()` — `FieldControl.update` (lines 345-364) — folds
the five status flags over the children seeded from the current status. -/
def GroupCtl.update (g : GroupCtl) : GroupCtl :=
  if g.state.initialized then
    let v := reduceControls g.controls g.state.status.disabled
    { g with
      state := { g.state with
        value := v
        status := statusFold g.state.status g.children } }
  else g

/-- `setStatus` invoked on a group: the inherited merge
(`src/lib/controls.ts` lines 316-320) followed by the overridden
`GroupControl.update`. -/
def GroupCtl.setStatus (g : GroupCtl) (p : StatusPatch) : GroupCtl :=
  GroupCtl.update { g with state := { g.state with status := mergeStatus g.state.status p } }

/-- Whether a control is an `instanceof FieldControl`
(`src/lib/controls.ts` line 461): `FieldControl`, `GroupControl` and
`ArrayControl` all extend `FieldControl`, so the test is true for every
node of the tree. -/
def Ctl.instFieldControl : Ctl → Bool
  | _ => true

mutual

/-- `GroupControl.getRawValue` (`src/lib/controls.ts` lines 452-465):
for each child, `control instanceof FieldControl ? control.value :
control.getRawValue()`. -/
def groupRawEntries : List (String × Ctl) → List (String × Val)
  | [] => []
  | (n, c) :: rest =>
    (n, if c.instFieldControl then c.val else Ctl.rawValue c) :: groupRawEntries rest

/-- `ArrayControl.getRawValue` (`src/lib/controls.ts` lines 567-571):
same per-child conditional, mapped over the sequence. -/
def arrayRawItems : List Ctl → List Val
  | [] => []
  | c :: rest =>
    (if c.instFieldControl then c.val else Ctl.rawValue c) :: arrayRawItems rest

/-- The `getRawValue` that the dead `else` branch would dispatch to on a
composite child; a leaf has no `getRawValue` of its own, its value is
used (the branch is unreachable anyway, see `Ctl.instFieldControl`). -/
def Ctl.rawValue : Ctl → Val
  | .field s => s.value
  | .group _ cs => .vrec (groupRawEntries cs)
  | .array _ _ cs => .vlist (arrayRawItems cs)

end

/-- `getRawValue` called on a group node. -/
def GroupCtl.getRawValue (g : GroupCtl) : Val :=
  .vrec (groupRawEntries g.controls)

/-! ## `ArrayControl` -/

/-- An `ArrayControl` (`src/lib/controls.ts` lines 495-612): inherited
`FieldControl` state, the `itemFactory`, and the indexed `controls`. -/
structure ArrayCtl where
  state : FState
  itemFactory : Option Val → Ctl
  controls : List Ctl

/-- `ArrayControl.update` (`src/lib/controls.ts` lines 578-587): when
initialized, `value = this.controls.map(c => c.value)`, publish, then
the inherited status fold over the children. -/
def ArrayCtl.update (a : ArrayCtl) : ArrayCtl :=
  if a.state.initialized then
    { a with
      state := { a.state with
        value := .vlist (a.controls.map Ctl.val)
        status := statusFold a.state.status a.controls } }
  else a

/-- `setStatus` invoked on an array: the inherited merge followed by
the overridden `ArrayControl.update`. -/
def ArrayCtl.setStatus (a : ArrayCtl) (p : StatusPatch) : ArrayCtl :=
  ArrayCtl.update { a with state := { a.state with status := mergeStatus a.state.status p } }

/-- `ArrayControl.push` (`src/lib/controls.ts` lines 529-532): append
the items and set their parent back-references; no `update()` runs.
(The parent pointer is modelled separately, see `PControl`.) -/
def ArrayCtl.push (a : ArrayCtl) (items : List Ctl) : ArrayCtl :=
  { a with controls := a.controls ++ items }

/-- `ArrayControl.removeAt` (`src/lib/controls.ts` lines 539-541):
`this.controls.splice(index, 1)`; neither status nor value is
recomputed. -/
def ArrayCtl.removeAt (a : ArrayCtl) (i : Nat) : ArrayCtl :=
  { a with controls := a.controls.eraseIdx i }

/-- `ArrayControl.clear` (`src/lib/controls.ts` lines 573-576):
`splice(0)` empties the sequence, then
`setStatus({ dirty: true, touched: true })` — whose `update()` also
recomputes `this.value` from the now-empty sequence. -/
def ArrayCtl.clear (a : ArrayCtl) : ArrayCtl :=
  ArrayCtl.setStatus { a with controls := [] }
    { dirty := some true, touched := some true }

/-- `fp-ts` `ReadonlyArray.range` (the `RAR.range` import at
`src/lib/controls.ts` line 1, used at line 591): the closed integer
interval `[b, e]`, except that when `b > e` it returns the one-element
list `[b]` (`range` delegates to `ReadonlyNonEmptyArray.range`, which
never returns an empty list). -/
def fpRange (b e : Int) : List Int :=
  if b ≤ e then (List.range (e - b + 1).toNat).map (fun i => b + i) else [b]

/-- The elements of an array control's value (`this.value[i]` at
`src/lib/controls.ts` line 592); at runtime the value of an
`ArrayControl` is always a JS array. -/
def Val.items : Val → List Val
  | .vlist xs => xs
  | _ => []

/-- The seed expression `this.value[i] ?? null`
(`src/lib/controls.ts` line 592): an out-of-range index (JS
`undefined`) and a `null` element both collapse to `null`. -/
def jsSeed (v : Val) (i : Nat) : Option Val :=
  match (Val.items v).get? i with
  | some w => match w with
    | .vnull => Option.none
    | w => some w
  | Option.none => Option.none

/-- `ArrayControl.resize` (`src/lib/controls.ts` lines 589-595):
`clear()` first, then fabricate `range(0, length - 1).map((_, i) =>
itemFactory(this.value[i] ?? null))` (the callback uses the *position*
index of the range array) and `push` the result. -/
def ArrayCtl.resize (a : ArrayCtl) (n : Nat) : ArrayCtl :=
  let a1 := a.clear
  let count := (fpRange 0 ((n : Int) - 1)).length
  let items := (List.range count).map (fun i => a1.itemFactory (jsSeed a1.state.value i))
  a1.push items

/-- The per-index `control.setValue(newValue)` call in
`ArrayControl.setValue` (`src/lib/controls.ts` lines 545-550), followed
by the bubbled `update()` reaching the array.  The claims exercise this
with leaf items (and with the empty list, where the loop body never
runs); a composite child would route the value recursively through its
own overridden `setValue`. -/
def ArrayCtl.setChildValue (a : ArrayCtl) (i : Nat) (v : Val) : ArrayCtl :=
  let setLeaf : Ctl → Ctl := fun c => match c with
    | .field s => .field (fieldSetValue s v)
    | c => c
  ArrayCtl.update { a with controls := a.controls.modify setLeaf i }

/-- `ArrayControl.setValue` (`src/lib/controls.ts` lines 543-551):
`resize(value.length)` and then `setValue` each index in order. -/
def ArrayCtl.setValue (a : ArrayCtl) (vs : List Val) : ArrayCtl :=
  (List.zip (List.range vs.length) vs).foldl
    (fun acc iv => acc.setChildValue iv.1 iv.2)
    (a.resize vs.length)

/-! ## The validation pipeline (`FieldControl.validate`)

`src/lib/controls.ts` lines 288-314.  A stream is modelled by the
finite ordered list of its emissions during the subscription's
lifetime.  Each validator's raw result is such a list of
`Messages | null` emissions (a synchronous result is the one-element
list, a promise-or-observable contributes its emissions in order); the
code pipes each through `first()`, so only the head matters.
`combineLatest` over streams that each emit at most once emits exactly
once — the list of the per-source values — as soon as all have emitted,
and never emits when some source never does (an empty source errors the
combination through `first()`'s `EmptyError`; either way nothing is
published). -/

/-- The emissions of the `sources` observable
(`src/lib/controls.ts` lines 289-299): with no validators, `of([])`;
otherwise `combineLatest` of each validator's `first()`-ed result,
mapped through `AR.filter(notNullish)`.

`firstsOf` is the single emission of `combineLatest` over the
`first()`-ed per-validator streams (`src/lib/controls.ts` lines
290-297): it exists exactly when every source emits at least once, and
then carries each source's first value. -/
def firstsOf : List (List (Option Msgs)) → Option (List (Option Msgs))
  | [] => some []
  | l :: rest =>
    match l.head?, firstsOf rest with
    | some h, some t => some (h :: t)
    | _, _ => Option.none

/-- The emissions of the `sources` observable itself
(`src/lib/controls.ts` lines 289-299): with no validators, `of([])`;
otherwise the single `combineLatest` emission, when it exists, mapped
through `AR.filter(notNullish)`. -/
def sourcesEmissions (vals : List (List (Option Msgs))) : List (List Msgs) :=
  match vals with
  | [] => [[]]
  | _ =>
    match firstsOf vals with
    | some firsts => [firsts.reduceOption]
    | Option.none => []

/-- The merge step (`src/lib/controls.ts` line 307):
`results.length ? results.reduce((acc, r) => ({...acc, ...r}), {}) : null`. -/
def mergeResults (l : List Msgs) : Option Msgs :=
  if l.isEmpty then Option.none else some (l.foldl spreadMerge [])

/-- The emissions published by one `validate()` subscription
(`src/lib/controls.ts` lines 304-313):
`combineLatest([initialized$.pipe(filter(Boolean)), sources])` followed
by `map(([, v]) => v)`, the merge, and `first()`.  `gate` is the list
of values the `_initialized$` `BehaviorSubject` emits during the
subscription (its value at subscription time first). -/
def validatePublished (gate : List Bool) (vals : List (List (Option Msgs))) :
    List (Option Msgs) :=
  match (gate.filter id).head?, (sourcesEmissions vals).head? with
  | some _, some firsts => [mergeResults firsts]
  | _, _ => []

/-- The subscription callback (`src/lib/controls.ts` lines 310-313):
`this.errors = errors; this.setStatus({ valid: !!errors })` — note the
double negation: `valid` is set to *truthiness of the error map*. -/
def applyPublish (s : FState) (e : Option Msgs) : FState :=
  fieldSetStatus { s with errors := e } { valid := some e.isSome }

/-- A whole `validate()` invocation's effect on a leaf field's state:
apply the published result, if any. -/
def runValidate (s : FState) (gate : List Bool) (vals : List (List (Option Msgs))) :
    FState :=
  match (validatePublished gate vals).head? with
  | some e => applyPublish s e
  | Option.none => s

/-- A field's lifetime of `validate()` invocations: each re-invocation
(`setValidators`, `src/lib/controls.ts` lines 275-278 and 301-303)
unsubscribes the previous subscription first, so invocation `k` only
observes the emissions that fall in its own window; the results
published over the lifetime are the concatenation of the windows'. -/
def totalPublishes (runs : List (List Bool × List (List (Option Msgs)))) :
    List (Option Msgs) :=
  (runs.map (fun r => validatePublished r.1 r.2)).flatten

/-! ## Registry resolution (`src/lib/visitor.ts`)

A `FuzzyExecutableRegistry` is a two-level lookup: category name to a
named map of methods.  A method is opaque here: a function from
`(config, control, params)` to a behavior source. -/

/-- An `ExecutableDefinition` `{name, params}` (`src/lib/executable`,
carried by config nodes). -/
structure ExecDef (π : Type) where
  name : String
  params : π

/-- A registry, category → name → method
(association lists standing for the JS objects). -/
abbrev Registry (μ : Type) := List (String × List (String × μ))

variable {μ γ κ σ : Type} {π : Type}

/-- `getRegistryMethod` (`src/lib/visitor.ts` lines 312-327):
`(registry[kind] as any)?.[def.name]`; absent category or absent name
yields `null` (the `.bind` of a found method does not change it as a
function of its arguments). -/
def getRegistryMethod (registry : Registry μ) (kind : String) (d : ExecDef π) :
    Option μ :=
  (registry.lookup kind).bind (fun cat => cat.lookup d.name)

/-- `getRegistryMethods` (`src/lib/visitor.ts` lines 298-310): look
every definition up, keep `{method, def}` pairs, `filter(notNullish)`. -/
def getRegistryMethods (registry : Registry μ) (kind : String)
    (defs : List (ExecDef π)) : List (μ × ExecDef π) :=
  (defs.map (fun d =>
    match getRegistryMethod registry kind d with
    | some method => some (method, d)
    | Option.none => Option.none)).reduceOption

/-- `getRegistryValues` (`src/lib/visitor.ts` lines 329-345): resolve
the methods and invoke each as `method(config, control, def.params)`. -/
def getRegistryValues (registry : Registry (γ → κ → π → σ)) (kind : String)
    (config : γ) (control : κ) (defs : List (ExecDef π)) : List σ :=
  (getRegistryMethods registry kind defs).map
    (fun md => md.1 config control md.2.params)

/-! ## The parent back-reference

`BaseControl._parent` (`src/lib/controls.ts` lines 109-118) modelled on
its own: a control is identified by an id, and only the
parent-assignment effects of the engine operations are tracked. -/

/-- A control's identity and parent back-reference
(`src/lib/controls.ts` lines 109-118). -/
structure PControl where
  id : Nat
  parent : Option Nat
  deriving Repr, DecidableEq

/-- `BaseControl.setParent` (`src/lib/controls.ts` lines 116-118):
unconditional assignment. -/
def PControl.setParent (c : PControl) (p : Nat) : PControl :=
  { c with parent := some p }

/-- `registerControl` of `GroupControl`/`ArrayControl`
(`src/lib/controls.ts` lines 478-480 and 597-599): `control.setParent(this)`. -/
def registerControlParent (ownerId : Nat) (c : PControl) : PControl :=
  c.setParent ownerId

/-- The effect of `ArrayControl.push` (`src/lib/controls.ts` lines
529-532) on each pushed item: `this.registerControl(control)`
(`insert`, lines 534-537, does the same). -/
def pushParent (ownerId : Nat) (c : PControl) : PControl :=
  registerControlParent ownerId c

/-- The visitor's second-pass parent attachment
(`src/lib/visitor.ts` lines 201-203):
`if (!control.parent && parent) control.setParent(parent)`. -/
def initItemAttachParent (c : PControl) (parent : Option Nat) : PControl :=
  match c.parent, parent with
  | Option.none, some p => c.setParent p
  | _, _ => c

/-! ## Shared helper lemmas -/

/-- Unfolding the five-flag fold of `FieldControl.update` into ORs over
the children. -/
theorem statusFold_eq (init : Status) (cs : List Ctl) :
    statusFold init cs =
      { valid := init.valid || cs.any fun c => c.status.valid
        disabled := init.disabled || cs.any fun c => c.status.disabled
        pending := init.pending || cs.any fun c => c.status.pending
        dirty := init.dirty || cs.any fun c => c.status.dirty
        touched := init.touched || cs.any fun c => c.status.touched } := by
  induction cs generalizing init with
  | nil => simp [statusFold]
  | cons c cs ih =>
    simp only [statusFold, List.foldl_cons] at ih ⊢
    rw [ih]
    simp [Bool.or_assoc]

/-- JS property access on a record value (used to state which keys a
reduced group value contains). -/
def entLookup (n : String) : List (String × Val) → Option Val
  | [] => Option.none
  | (k, v) :: rest => if k = n then some v else entLookup n rest

/-- `entLookup` on a group value. -/
def recLookup (n : String) : Val → Option Val
  | .vrec fs => entLookup n fs
  | _ => Option.none

/-- A key absent from an association list is absent from the
status-filtered reduction. -/
theorem lookup_reduceEntries_not_mem (l : List (String × Ctl)) (gdis : Bool)
    (n : String) (hn : n ∉ l.map Prod.fst) :
    entLookup n (l.filterMap fun nc =>
        cond (!nc.2.status.disabled || gdis) (some (nc.1, nc.2.val))
          Option.none) = Option.none := by
  induction l with
  | nil => simp [entLookup]
  | cons hd tl ih =>
    simp only [List.map_cons, List.mem_cons, not_or] at hn
    obtain ⟨hne, htl⟩ := hn
    cases hc : (!hd.2.status.disabled || gdis) with
    | true =>
      simp only [List.filterMap_cons, hc, Bool.cond_true, entLookup]
      rw [if_neg (by simpa [eq_comm] using hne)]
      exact ih htl
    | false =>
      simp only [List.filterMap_cons, hc, Bool.cond_false]
      exact ih htl

/-- Looking a present key up in the status-filtered reduction: the
entry survives exactly when the child is enabled or the group disabled. -/
theorem lookup_reduceEntries (l : List (String × Ctl)) (gdis : Bool)
    (hnd : (l.map Prod.fst).Nodup) (n : String) (c : Ctl) (h : (n, c) ∈ l) :
    entLookup n (l.filterMap fun nc =>
        cond (!nc.2.status.disabled || gdis) (some (nc.1, nc.2.val))
          Option.none) =
      cond (!c.status.disabled || gdis) (some c.val) Option.none := by
  induction l with
  | nil => cases h
  | cons hd tl ih =>
    simp only [List.map_cons, List.nodup_cons] at hnd
    obtain ⟨hkey, htl⟩ := hnd
    rcases List.mem_cons.mp h with heq | hmem
    · subst heq
      cases hc : (!c.status.disabled || gdis) with
      | true => simp [List.filterMap_cons, hc, entLookup]
      | false =>
        simp only [List.filterMap_cons]
        simpa [hc] using lookup_reduceEntries_not_mem tl gdis n hkey
    · have hne : hd.1 ≠ n := fun he => hkey (he ▸ List.mem_map_of_mem Prod.fst hmem)
      cases hc : (!hd.2.status.disabled || gdis) with
      | true => simpa [List.filterMap_cons, hc, entLookup, hne] using ih htl hmem
      | false => simpa [List.filterMap_cons, hc] using ih htl hmem

/-- `head?` only sees the first element, so `take 1` does not change it. -/
theorem head?_take_one (l : List α) : (l.take 1).head? = l.head? := by
  cases l <;> rfl

/-- Emissions past each validator's first are never consulted. -/
theorem firstsOf_take_one (vals : List (List (Option Msgs))) :
    firstsOf (vals.map (fun l => l.take 1)) = firstsOf vals := by
  induction vals with
  | nil => rfl
  | cons v vs ih => simp [firstsOf, head?_take_one, ih]

/-- Each `validate()` subscription publishes at most one result
(`first()` at `src/lib/controls.ts` line 308). -/
theorem validatePublished_length_le (gate : List Bool)
    (vals : List (List (Option Msgs))) :
    (validatePublished gate vals).length ≤ 1 := by
  unfold validatePublished
  split <;> simp

/-! ## Claim C9 -/

/-- C9: `FieldControl.reset()` restores `initialValue` and clears
`dirty` and `touched`, leaving `valid`, `pending` and `disabled` (and
the recorded `initialValue`) exactly as they were. -/
theorem c9_field_reset_frame (s : FState) :
    (fieldReset s).value = s.initialValue ∧
    (fieldReset s).initialValue = s.initialValue ∧
    (fieldReset s).status.dirty = false ∧
    (fieldReset s).status.touched = false ∧
    (fieldReset s).status.valid = s.status.valid ∧
    (fieldReset s).status.pending = s.status.pending ∧
    (fieldReset s).status.disabled = s.status.disabled ∧
    (fieldReset s).errors = s.errors := by
  unfold fieldReset fieldSetStatus fieldUpdate
  split <;> simp [mergeStatus, statusFold]

/-! ## Claim C7 -/

/-- C7: a behavior definition whose name has no entry in the registry's
category — or whose category is absent entirely — resolves to no
installed source and is silently dropped; the remaining definitions
still resolve, each to `method(config, control, def.params)`. -/
theorem c7_missing_registry_entries
    (registry : Registry (γ → κ → π → σ)) (kind : String)
    (d : ExecDef π) (defs : List (ExecDef π)) (config : γ) (control : κ) :
    (registry.lookup kind = Option.none →
      getRegistryMethod registry kind d = Option.none) ∧
    (∀ cat, registry.lookup kind = some cat → cat.lookup d.name = Option.none →
      getRegistryMethod registry kind d = Option.none) ∧
    (getRegistryMethod registry kind d = Option.none →
      getRegistryMethods registry kind (d :: defs) =
        getRegistryMethods registry kind defs) ∧
    (getRegistryValues registry kind config control defs =
      defs.filterMap fun d0 => (getRegistryMethod registry kind d0).map
        fun m => m config control d0.params) := by
  refine ⟨?_, ?_, ?_, ?_⟩
  · intro h
    simp [getRegistryMethod, h]
  · intro cat h1 h2
    simp [getRegistryMethod, h1, h2]
  · intro h
    simp [getRegistryMethods, h, List.reduceOption]
  · induction defs with
    | nil => rfl
    | cons d0 ds ih =>
      simp only [getRegistryValues, getRegistryMethods, List.map_cons,
        List.filterMap_cons] at ih ⊢
      cases hm : getRegistryMethod registry kind d0 <;>
        simp [hm, List.reduceOption_cons_of_none, List.reduceOption_cons_of_some, ih]

/-- A concrete registry for the C7 witness: only the `validators`
category with only a `required` entry. -/
def c7wreg : Registry (Nat → Nat → Nat → Nat) :=
  [("validators", [("required", fun _ _ ps => ps + 1)])]

/-- Witness for C7: against `c7wreg`, a definition named `nope` (and any
lookup in the absent `hints` category) resolves to nothing, while the
present `required` definition still resolves. -/
theorem c7_missing_registry_entries_witness :
    getRegistryMethod c7wreg "hints" (⟨"required", 0⟩ : ExecDef Nat) = Option.none ∧
    getRegistryValues c7wreg "validators" 0 0
      [(⟨"required", 6⟩ : ExecDef Nat), ⟨"nope", 2⟩] = [7] := by
  constructor
  · exact (c7_missing_registry_entries c7wreg "hints" ⟨"required", 0⟩ [] 0 0).1 rfl
  · rw [(c7_missing_registry_entries c7wreg "validators" ⟨"required", 0⟩
      [⟨"required", 6⟩, ⟨"nope", 2⟩] 0 0).2.2.2]
    rfl

/-! ## Claim C8 -/

/-- C8 counterexample: `push` re-parents.  A control whose parent
back-reference is already set to control `1` is pushed into control `2`
(`ArrayControl.push` registers every pushed item unconditionally via
`setParent`), and its parent is reassigned — refuting the claim that no
engine operation in the listed set ever reassigns a set parent. -/
theorem c8_push_reparents_counterexample :
    (pushParent 2 ⟨0, some 1⟩).parent = some 2 ∧
    (some 2 : Option Nat) ≠ some 1 := by
  exact ⟨rfl, by decide⟩

/-- C8 amended: the visitor's second pass attaches a parent only when
none is set, so it never reassigns an existing parent back-reference;
every other parent assignment — `setParent` itself, and therefore
`registerControl` as called by the Group/Array constructors (including
on the already-parented children spread out of an anonymous group
during pass-1 flattening, `src/lib/visitor.ts` lines 431-446), `push`
and `insert` — is unconditional and reassigns an already-set parent. -/
theorem c8_visitor_preserves_parent (c : PControl) (q : Option Nat) (p : Nat)
    (h : c.parent = some p) :
    (initItemAttachParent c q).parent = some p := by
  cases q <;> simp [initItemAttachParent, h]

/-- Witness for the amended C8: an already-parented control passes
through the visitor's attachment untouched. -/
theorem c8_visitor_preserves_parent_witness :
    (initItemAttachParent ⟨0, some 1⟩ (some 2)).parent = some 1 :=
  c8_visitor_preserves_parent ⟨0, some 1⟩ (some 2) 1 rfl

/-! ## Claim C5 -/

/-- C5: after a group's `update()`, the recomputed value contains a
child's entry exactly when that child is enabled or the group itself is
disabled (`reduceControls` with the group's own `status.disabled`). -/
theorem c5_group_value_reduction (g : GroupCtl)
    (hinit : g.state.initialized = true)
    (hnd : (g.controls.map Prod.fst).Nodup) (n : String) (c : Ctl)
    (hmem : (n, c) ∈ g.controls) :
    recLookup n (GroupCtl.update g).state.value =
      cond (!c.status.disabled || g.state.status.disabled) (some c.val)
        Option.none := by
  simp only [GroupCtl.update, hinit, if_true, reduceControls, recLookup]
  exact lookup_reduceEntries g.controls g.state.status.disabled hnd n c hmem

/-- C5 witness scenario: a disabled child `a`. -/
def c5wa : Ctl :=
  .field ⟨.vint 1, .vint 1, { Status.none with disabled := true }, Option.none, true⟩

/-- C5 witness scenario: an enabled child `b`. -/
def c5wb : Ctl :=
  .field ⟨.vint 2, .vint 2, Status.none, Option.none, true⟩

/-- C5 witness scenario: an enabled group over `a` and `b`. -/
def c5wg : GroupCtl :=
  ⟨⟨.vnull, .vnull, Status.none, Option.none, true⟩, [("a", c5wa), ("b", c5wb)]⟩

/-- Witness for C5: in the enabled group, the disabled child's key is
omitted and the enabled child's value is present. -/
theorem c5_group_value_reduction_witness :
    recLookup "a" (GroupCtl.update c5wg).state.value = Option.none ∧
    recLookup "b" (GroupCtl.update c5wg).state.value = some (Val.vint 2) := by
  constructor
  · have h := c5_group_value_reduction c5wg rfl (by decide) "a" c5wa
      (List.mem_cons_self _ _)
    simpa [c5wa, c5wg, Ctl.status, Ctl.fstate, Ctl.val] using h
  · have h := c5_group_value_reduction c5wg rfl (by decide) "b" c5wb
      (List.mem_cons_of_mem _ (List.mem_cons_self _ _))
    simpa [c5wb, c5wg, Ctl.status, Ctl.fstate, Ctl.val] using h

/-! ## Claim C2 -/

/-- C2 counterexample scenario: an enabled, untouched leaf item. -/
def c2xleaf : Ctl :=
  .field ⟨.vnull, .vnull, Status.none, Option.none, true⟩

/-- C2 counterexample scenario: an initialized array, all local flags
`false`, holding the single leaf item. -/
def c2xarr : ArrayCtl :=
  ⟨⟨.vlist [.vnull], .vlist [.vnull], Status.none, Option.none, true⟩,
    (fun _ => c2xleaf), [c2xleaf]⟩

/-- C2 counterexample: staleness after child removal.  Setting the only
child's value marks the child dirty/touched and the bubbled `update()`
ORs that into the array's status; `removeAt(0)` then leaves the array
with zero children but `status.touched` still `true` — and even an
explicit further `update()` keeps it `true`, because the status fold is
seeded from the stored status.  The claim requires the aggregate to
equal the local flag (here `false`) OR-ed over the (now zero) current
children, i.e. `false`. -/
theorem c2_stale_after_remove_counterexample :
    ((c2xarr.setChildValue 0 (Val.vint 1)).removeAt 0).controls = [] ∧
    ((c2xarr.setChildValue 0 (Val.vint 1)).removeAt 0).state.status.touched = true ∧
    (((c2xarr.setChildValue 0 (Val.vint 1)).removeAt 0).update).state.status.touched
      = true := by
  exact ⟨rfl, rfl, rfl⟩

/-- C2 amended: a composite's status is recomputed only by operations
that run `update()` (`setStatus`, and everything routed through it:
`setValue`, `patchValue`, `reset`, `clear`, `resize`); each such
recomputation sets every one of the five flags to the merged current
flag OR-ed over every current child's flag (for `clear` and `resize`
the children present at the update are none, so the result is exactly
the stored status with `dirty`/`touched` forced `true`), so flags
accumulate monotonically — removing the last child carrying a flag does
not drop it, and `push`/`insert`/`removeAt` do not recompute status or
value at all. -/
theorem c2_amended_status_aggregation (g : GroupCtl) (p : StatusPatch)
    (a : ArrayCtl) (i : Nat) (n : Nat) (cs : List Ctl)
    (hg : g.state.initialized = true) (ha : a.state.initialized = true) :
    ((g.setStatus p).state.status =
      { valid := (mergeStatus g.state.status p).valid ||
          g.children.any fun c => c.status.valid
        disabled := (mergeStatus g.state.status p).disabled ||
          g.children.any fun c => c.status.disabled
        pending := (mergeStatus g.state.status p).pending ||
          g.children.any fun c => c.status.pending
        dirty := (mergeStatus g.state.status p).dirty ||
          g.children.any fun c => c.status.dirty
        touched := (mergeStatus g.state.status p).touched ||
          g.children.any fun c => c.status.touched }) ∧
    ((a.setStatus p).state.status =
      { valid := (mergeStatus a.state.status p).valid ||
          a.controls.any fun c => c.status.valid
        disabled := (mergeStatus a.state.status p).disabled ||
          a.controls.any fun c => c.status.disabled
        pending := (mergeStatus a.state.status p).pending ||
          a.controls.any fun c => c.status.pending
        dirty := (mergeStatus a.state.status p).dirty ||
          a.controls.any fun c => c.status.dirty
        touched := (mergeStatus a.state.status p).touched ||
          a.controls.any fun c => c.status.touched }) ∧
    ((a.clear).state.status =
      { a.state.status with dirty := true, touched := true }) ∧
    ((a.resize n).state.status =
      { a.state.status with dirty := true, touched := true }) ∧
    ((a.removeAt i).state = a.state) ∧
    ((a.push cs).state = a.state) ∧
    (g.state.status.dirty = true → g.update.state.status.dirty = true) ∧
    (g.state.status.touched = true → g.update.state.status.touched = true) ∧
    (g.state.status.valid = true → g.update.state.status.valid = true) ∧
    (g.state.status.pending = true → g.update.state.status.pending = true) ∧
    (g.state.status.disabled = true → g.update.state.status.disabled = true) ∧
    (a.state.status.dirty = true → a.update.state.status.dirty = true) ∧
    (a.state.status.touched = true → a.update.state.status.touched = true) ∧
    (a.state.status.valid = true → a.update.state.status.valid = true) ∧
    (a.state.status.pending = true → a.update.state.status.pending = true) ∧
    (a.state.status.disabled = true → a.update.state.status.disabled = true) := by
  have hclear : (a.clear).state.status =
      { a.state.status with dirty := true, touched := true } := by
    simp [ArrayCtl.clear, ArrayCtl.setStatus, ArrayCtl.update, ha, statusFold_eq,
      mergeStatus]
  have hresize : (a.resize n).state.status =
      { a.state.status with dirty := true, touched := true } := by
    simp only [ArrayCtl.resize, ArrayCtl.push]
    exact hclear
  refine ⟨?_, ?_, hclear, hresize, rfl, rfl, ?_, ?_, ?_, ?_, ?_, ?_, ?_, ?_, ?_, ?_⟩
  · simp [GroupCtl.setStatus, GroupCtl.update, hg, statusFold_eq, GroupCtl.children]
  · simp [ArrayCtl.setStatus, ArrayCtl.update, ha, statusFold_eq]
  all_goals
    intro h
    simp [GroupCtl.update, ArrayCtl.update, hg, ha, statusFold_eq, h]

/-- C2 amended-witness scenario: a dirty and touched child. -/
def c2wchild : Ctl :=
  .field ⟨.vint 3, .vint 3, { Status.none with touched := true, dirty := true },
    Option.none, true⟩

/-- C2 amended-witness scenario: a group over the flagged child. -/
def c2wg : GroupCtl :=
  ⟨⟨.vnull, .vnull, Status.none, Option.none, true⟩, [("x", c2wchild)]⟩

/-- C2 amended-witness scenario: an array holding the flagged child. -/
def c2wa : ArrayCtl :=
  ⟨⟨.vlist [], .vlist [], Status.none, Option.none, true⟩,
    (fun _ => c2wchild), [c2wchild]⟩

/-- Witness for the amended C2: `setStatus` recomputations pick up the
child's `touched` flag on both composites, `clear` forces
`dirty`/`touched` while keeping the rest, and `removeAt` leaves the
state untouched. -/
theorem c2_amended_status_aggregation_witness :
    (c2wg.setStatus {}).state.status.touched = true ∧
    (c2wa.setStatus {}).state.status.touched = true ∧
    (c2wa.clear).state.status.dirty = true ∧
    (c2wa.removeAt 0).state = c2wa.state := by
  have h := c2_amended_status_aggregation c2wg {} c2wa 0 2 [] rfl rfl
  refine ⟨?_, ?_, ?_, h.2.2.2.2.1⟩
  · rw [h.1]
    rfl
  · rw [h.2.1]
    rfl
  · rw [h.2.2.1]

/-! ## Claim C3 -/

/-- C3 scenario: the item factory, mirroring what the default visitor's
`fieldInit` produces for a seed (`value ?? null`, a fresh status, gate
open). -/
def c3fac : Option Val → Ctl := fun seed =>
  .field ⟨seed.getD .vnull, seed.getD .vnull, Status.none, Option.none, true⟩

/-- C3 scenario: an initialized two-item array whose value is `[1, 2]`. -/
def c3arr : ArrayCtl :=
  ⟨⟨.vlist [.vint 1, .vint 2], .vlist [.vint 1, .vint 2], Status.none,
      Option.none, true⟩,
    c3fac, [c3fac (some (.vint 1)), c3fac (some (.vint 2))]⟩

/-- C3 evaluation at the failing input: `resize(1)` on the `[1, 2]`
array does *not* keep the surviving item's value `1`: `clear()` runs
`update()` (the array is initialized), which recomputes `this.value`
from the just-emptied sequence before the seeds `this.value[i] ?? null`
are read, so every rebuilt index — surviving or new — is fabricated
from `null`.  (`resize(3)` likewise yields three null-seeded items, so
the `n > L` half of the claim does hold, vacuously of prior values.) -/
theorem c3_resize_wipes_survivors :
    ((c3arr.resize 1).controls.map Ctl.val = [Val.vnull]) ∧
    ((c3arr.clear).state.value = .vlist []) ∧
    (jsSeed (c3arr.clear).state.value 0 = Option.none) ∧
    ((c3arr.resize 3).controls.map Ctl.val = [Val.vnull, Val.vnull, Val.vnull]) := by
  exact ⟨rfl, rfl, rfl, rfl⟩

/-! ## Claim C10 -/

/-- C10: `setValue([])` (equivalently `resize(0)`) on an initialized
array does not leave it empty: `fp-ts`'s `range(0, -1)` is the
one-element list `[0]`, so exactly one child is fabricated, and —
because `clear()` has already emptied `this.value` — it is seeded from
`null`. -/
theorem c10_resize_zero_one_item (a : ArrayCtl)
    (h : a.state.initialized = true) :
    (a.setValue []).controls = [a.itemFactory Option.none] ∧
    (a.setValue []).controls.length = 1 := by
  constructor <;>
    simp [ArrayCtl.setValue, ArrayCtl.resize, ArrayCtl.clear, ArrayCtl.setStatus,
      ArrayCtl.update, ArrayCtl.push, h, fpRange, jsSeed, Val.items,
      show ¬((0 : Int) ≤ -1) by norm_num]

/-- C10 witness scenario: an initialized array with two items and value
`[5, 6]`. -/
def c10wa : ArrayCtl :=
  ⟨⟨.vlist [.vint 5, .vint 6], .vlist [.vint 5, .vint 6], Status.none,
      Option.none, true⟩,
    c3fac, [c3fac (some (.vint 5)), c3fac (some (.vint 6))]⟩

/-- Witness for C10: `setValue([])` on the two-item array leaves one
null-seeded child. -/
theorem c10_resize_zero_one_item_witness :
    (c10wa.setValue []).controls.length = 1 ∧
    (c10wa.setValue []).controls.map Ctl.val = [Val.vnull] := by
  have h := c10_resize_zero_one_item c10wa rfl
  refine ⟨h.2, ?_⟩
  rw [h.1]
  rfl

/-! ## Claim C4 -/

/-- C4 scenario: the disabled grandchild `a` with value `7`. -/
def c4a : Ctl :=
  .field ⟨.vint 7, .vint 7, { Status.none with disabled := true }, Option.none, true⟩

/-- C4 scenario: the enabled grandchild `b` with value `8`. -/
def c4b : Ctl :=
  .field ⟨.vint 8, .vint 8, Status.none, Option.none, true⟩

/-- C4 scenario: the child group over `a` and `b`, after its
`update()` — its stored `value` is the disabled-aware reduction, which
omits `a`. -/
def c4inner : GroupCtl :=
  GroupCtl.update ⟨⟨.vnull, .vnull, Status.none, Option.none, true⟩,
    [("a", c4a), ("b", c4b)]⟩

/-- C4 scenario: the root group with the single composite child. -/
def c4root : GroupCtl :=
  ⟨⟨.vnull, .vnull, Status.none, Option.none, true⟩,
    [("child", Ctl.group c4inner.state c4inner.controls)]⟩

/-- C4 evaluation at the failing input: `getRawValue` on the root takes
`control.value` for the composite child (every node satisfies
`instanceof FieldControl`, so the recursive `else` branch is dead) and
therefore returns `{child: {b: 8}}` — the disabled grandchild `a` is
missing, while the recursion the claim describes would have produced
`{child: {a: 7, b: 8}}`. -/
theorem c4_getRawValue_no_recursion :
    c4root.getRawValue = .vrec [("child", .vrec [("b", .vint 8)])] ∧
    Ctl.instFieldControl (Ctl.group c4inner.state c4inner.controls) = true ∧
    Ctl.rawValue (Ctl.group c4inner.state c4inner.controls) =
      .vrec [("a", .vint 7), ("b", .vint 8)] ∧
    recLookup "a" ((recLookup "child" c4root.getRawValue).getD .vnull) = Option.none := by
  exact ⟨rfl, rfl, rfl, rfl⟩

/-! ## Claim C1 -/

/-- C1 scenario: the error map a required-style validator returns on an
empty value. -/
def reqMsgs : Msgs := [("required", "field is required")]

/-- C1 scenario: the state `FieldControl`'s constructor establishes
before `validate()`/`fieldReady()` run (`src/lib/controls.ts` lines
244-263): empty-string value, `valid: true`, no errors; the gate is
open by the time any result is published. -/
def c1s0 : FState :=
  ⟨.vstr "", .vstr "", ⟨true, false, false, false, false⟩, Option.none, true⟩

/-- C1 evaluation at the failing input: the publish callback runs
`setStatus({ valid: !!errors })` (`src/lib/controls.ts` line 312), so a
field whose single required validator returns `{required: ...}` ends
with `errors = {required: ...}` but `status.valid = true`, and a field
with *no* failing validators ends with `errors = null` but
`status.valid = false` — the exact inverse of the claim (and of the
constructor's own `valid: true` initial status). -/
theorem c1_validate_publishes_inverted_valid :
    validatePublished [false, true] [[some reqMsgs]] = [some reqMsgs] ∧
    (runValidate c1s0 [false, true] [[some reqMsgs]]).errors = some reqMsgs ∧
    (runValidate c1s0 [false, true] [[some reqMsgs]]).status.valid = true ∧
    (runValidate c1s0 [false, true] []).errors = Option.none ∧
    (runValidate c1s0 [false, true] []).status.valid = false := by
  exact ⟨rfl, rfl, rfl, rfl, rfl⟩

/-! ## Claim C6 -/

/-- Per-source `take 1` does not change the `sources` emissions. -/
theorem sourcesEmissions_take_one (vals : List (List (Option Msgs))) :
    sourcesEmissions (vals.map fun l => l.take 1) = sourcesEmissions vals := by
  cases vals with
  | nil => rfl
  | cons v vs =>
    simp only [List.map_cons, sourcesEmissions]
    rw [show (v.take 1 :: vs.map fun l => l.take 1) =
      ((v :: vs).map fun l => l.take 1) from rfl]
    rw [firstsOf_take_one]

/-- C6: each `validate()` invocation publishes at most one result;
nothing is published while the initialization gate never opens;
emissions past each validator's first are ignored (the published list
is invariant under truncating every validator stream to its first
emission); once the gate has emitted `true` and every validator has
resolved a first value, exactly one result — the null-filtered merge of
those first values — is published; and over a lifetime of
re-invocations (each `setValidators`/`validate()` call tears the
previous pending subscription down, so each invocation only sees its
own window) the published results number at most one per invocation. -/
theorem c6_validate_single_publish (gate : List Bool)
    (vals : List (List (Option Msgs)))
    (firsts : List (Option Msgs))
    (runs : List (List Bool × List (List (Option Msgs)))) :
    ((validatePublished gate vals).length ≤ 1) ∧
    ((∀ b ∈ gate, b = false) → validatePublished gate vals = []) ∧
    (validatePublished gate (vals.map fun l => l.take 1) =
      validatePublished gate vals) ∧
    (true ∈ gate → firstsOf vals = some firsts →
      validatePublished gate vals = [mergeResults firsts.reduceOption]) ∧
    ((totalPublishes runs).length ≤ runs.length) := by
  refine ⟨validatePublished_length_le gate vals, ?_, ?_, ?_, ?_⟩
  · intro hall
    have hnil : gate.filter id = [] := by
      rw [List.filter_eq_nil_iff]
      intro b hb
      simp [hall b hb]
    simp [validatePublished, hnil]
  · unfold validatePublished
    rw [sourcesEmissions_take_one]
  · intro hg hf
    have hmem : true ∈ gate.filter id := List.mem_filter.mpr ⟨hg, rfl⟩
    have hne : gate.filter id ≠ [] := by
      intro hnil
      rw [hnil] at hmem
      cases hmem
    obtain ⟨b, hb⟩ : ∃ b, (gate.filter id).head? = some b := by
      cases hh : (gate.filter id).head? with
      | none => exact absurd (List.head?_eq_none_iff.mp hh) hne
      | some b => exact ⟨b, rfl⟩
    cases vals with
    | nil =>
      obtain rfl : ([] : List (Option Msgs)) = firsts := by
        simpa [firstsOf] using hf
      simp [validatePublished, sourcesEmissions, hb]
    | cons v vs =>
      simp [validatePublished, sourcesEmissions, hb, hf]
  · induction runs with
    | nil => simp [totalPublishes]
    | cons r rs ih =>
      simp only [totalPublishes, List.map_cons, List.flatten_cons,
        List.length_append, List.length_cons] at ih ⊢
      have h1 := validatePublished_length_le r.1 r.2
      omega

/-- C6 witness scenario: a concrete validator result map. -/
def c6wm : Msgs := [("maxlength", "too long")]

/-- Witness for C6: with the gate open and two validators — one
yielding the map, one yielding `null` — exactly the merged (filtered)
map is published once. -/
theorem c6_validate_single_publish_witness :
    validatePublished [true] [[some c6wm], [Option.none]] = [some c6wm] := by
  have h := c6_validate_single_publish [true] [[some c6wm], [Option.none]]
    [some c6wm, Option.none] []
  rw [h.2.2.2.1 (by simp) rfl]
  rfl

end Formulator
